import Mathlib

/-!
# Shallow embedding of `src/scripts/blog-engine.js`

The class `BlogEngine` is a client-side router: it loads a manifest of blog
series, reacts to the fragment of the address, and shows either the home
listing, one part of a series, or an error message.

Modelling choices.

* JavaScript strings are Lean `String`s; the string methods the engine calls
  (`startsWith`, `includes`, `endsWith`, `split`, `replace`, `toLowerCase`) are
  defined below on the character lists.
* The mutable page (document title, header, content region, loader, scroll
  position) together with `this.blogs` is the record `BlogEngine`; every method
  is a function from the state before the call to the state after it.
* `innerHTML` templates are represented by the values interpolated into them
  (`Content`), titles and ids being treated as text.  The anchors of the content
  region are explicit, because `rewriteLinks` edits them through the DOM.
* `fetch`, `marked.parse`, `DOMPurify.sanitize`, JSON decoding and the HTML
  parser are external: they are the fields of `Env`.  A rejected promise or a
  thrown exception is the value `none` (or `FetchResult.networkError`).
* `fetched` records the locations passed to `fetch`, in order.
* A decoded manifest is a list of well-typed series (`Env.json`); a document of
  another shape is outside the model.  Address changes are processed one after the
  other: two navigations in flight at once are outside the model.
-/

namespace GASD

/-! ## String methods -/

/-- JavaScript `s.startsWith(pat)`. -/
def startsWith (s pat : String) : Bool := pat.data.isPrefixOf s.data

/-- JavaScript `s.endsWith(pat)`. -/
def endsWith (s pat : String) : Bool := pat.data.isSuffixOf s.data

/-- JavaScript `s.includes(pat)`. -/
def includes (s pat : String) : Bool := decide (pat.data <:+: s.data)

/-- JavaScript `s.split(sep)` for a one-character separator: never the empty list,
`"".split("/")` is `[""]`. -/
def split (s : String) (sep : Char) : List String := (s.data.splitOn sep).map String.mk

/-- Removal of the first occurrence of `pat` in a character list (all of it is kept
when `pat` does not occur). -/
def replaceFirst (pat : List Char) : List Char → List Char
  | [] => []
  | c :: cs =>
    if pat.isPrefixOf (c :: cs) then (c :: cs).drop pat.length else c :: replaceFirst pat cs

/-- JavaScript `s.replace(pat, '')` with a string pattern: only the first occurrence
is replaced. -/
def replace (s pat : String) : String := ⟨replaceFirst pat.data s.data⟩

/-- JavaScript `s.toLowerCase()`, on the letters `A`..`Z`; other characters are kept. -/
def toLowerCase (s : String) : String := ⟨s.data.map Char.toLower⟩

/-- JavaScript `l.findIndex(p)`: the first index whose element satisfies `p`, or `-1`. -/
def findIndex {α : Type} (p : α → Bool) (l : List α) : Int :=
  if l.findIdx p < l.length then (l.findIdx p : Int) else -1

/-- JavaScript `l[i]` for an integer `i`: `none` stands for `undefined`, which is what
an index below zero or past the end gives. -/
def index {α : Type} (l : List α) (i : Int) : Option α :=
  if 0 ≤ i then l[i.toNat]? else none

/-! ## Manifest -/

/-- One entry of a series: `{ id, title, description, file }`. -/
structure Part where
  id : String
  title : String
  description : String
  file : String
  deriving DecidableEq, Repr

/-- One series of the manifest: `{ id, title, parts }`. -/
structure Blog where
  id : String
  title : String
  parts : List Part
  deriving DecidableEq, Repr

/-- The data-model invariant of the manifest: series ids are pairwise distinct, and
within each series the part ids are pairwise distinct. -/
def WellFormed (blogs : List Blog) : Prop :=
  (blogs.map Blog.id).Nodup ∧ ∀ b ∈ blogs, (b.parts.map Part.id).Nodup

instance (blogs : List Blog) : Decidable (WellFormed blogs) := by
  unfold WellFormed; infer_instance

/-! ## Page state -/

/-- An `a` element written by the engine: its `href` attribute and its text. -/
structure Anchor where
  href : Option String
  text : String
  deriving DecidableEq, Repr

/-- One `li` of the home listing. -/
structure HomeLink where
  href : Option String
  cls : String
  title : String
  description : String
  deriving DecidableEq, Repr

/-- One `div.series-group` of the home listing. -/
structure SeriesGroup where
  heading : String
  links : List HomeLink
  deriving DecidableEq, Repr

/-- The markup of a part: breadcrumb, article, navigation links.  `articleLinks` are
the `href` attributes of the anchors inside the article, in document order;
`none` in `prev` or `next` is the empty `span` placeholder. -/
structure PartView where
  breadcrumbHome : Anchor
  breadcrumbTitle : String
  article : String
  articleLinks : List (Option String)
  prev : Option Anchor
  next : Option Anchor
  deriving DecidableEq, Repr

/-- What the content region holds. -/
inductive Content where
  | initial
  | home (groups : List SeriesGroup)
  | part (view : PartView)
  | error (message : String)
  deriving DecidableEq, Repr

/-- The engine together with the page it drives. -/
structure BlogEngine where
  blogs : List Blog
  title : String
  headerTitle : String
  headerSubtitle : String
  content : Content
  loaderDisplay : String
  contentOpacity : String
  scroll : Nat × Nat
  fetched : List String
  deriving DecidableEq, Repr

/-- Outcome of `fetch(location)`: the promise rejects, or it resolves with a response
of some status whose body can be read (`some`) or not (`none`). -/
inductive FetchResult where
  | networkError
  | response (status : Nat) (body : Option String)
  deriving DecidableEq, Repr

/-- The external capabilities. -/
structure Env where
  fetch : String → FetchResult
  json : String → Option (List Blog)
  markedParse : String → Option String
  sanitize : String → Option String
  anchors : String → List (Option String)

/-- The two calls `handleRouting` can make. -/
inductive Call where
  | renderHome
  | renderPart (blogId partId : String)
  deriving DecidableEq, Repr

/-! ## The engine -/

def defaultTitle : String := "General Agentic Software Design"

def defaultSubtitle : String := "Architecting the future of AI-driven engineering."

/-- Text of the message `init` shows when the manifest cannot be loaded. -/
def manifestErrorMessage : String := "Failed to load blog index. Please try again later."

/-- Text of the message `renderPart` shows when its `try` block throws. -/
def partErrorMessage : String :=
  "Failed to load the blog post. It might have been moved or deleted."

/-- The identifier `rewriteLinks` derives from a target (`finalId`). -/
def linkId (href : String) : String :=
  let parts := split href '/'
  let filename := parts.getLastD ""
  let id := toLowerCase (replace (replace filename ".md") ".html")
  if id = "intro" then "intro" else id

/-- The body of the `forEach` of `rewriteLinks`, on the `href` attribute of one
anchor (`none`: the anchor has no such attribute). -/
def rewriteLink (blogId : String) (href : Option String) : Option String :=
  match href with
  | none => none
  | some h =>
    if h ≠ "" ∧ (startsWith h "./" ∨ ¬ includes h "://") then
      if endsWith h ".md" ∨ endsWith h ".html" then
        some ("#" ++ blogId ++ "/" ++ linkId h)
      else some h
    else some h

/-- Application of `f` to the `href` of every anchor of the content region. -/
def Content.mapHrefs (f : Option String → Option String) : Content → Content
  | .initial => .initial
  | .error m => .error m
  | .home groups =>
    .home (groups.map fun g => { g with links := g.links.map fun l => { l with href := f l.href } })
  | .part v =>
    .part { v with
      breadcrumbHome := { v.breadcrumbHome with href := f v.breadcrumbHome.href }
      articleLinks := v.articleLinks.map f
      prev := v.prev.map fun a => { a with href := f a.href }
      next := v.next.map fun a => { a with href := f a.href } }

namespace BlogEngine

/-- The constructor: `this.blogs = []` on the page as it was served. -/
def new (page : BlogEngine) : BlogEngine := { page with blogs := [] }

def showLoader (st : BlogEngine) (display : Bool) : BlogEngine :=
  { st with
    loaderDisplay := if display then "block" else "none"
    contentOpacity := if display then "0.5" else "1" }

def renderHome (st : BlogEngine) : BlogEngine :=
  { st with
    title := defaultTitle
    headerTitle := defaultTitle
    headerSubtitle := defaultSubtitle
    content := .home (st.blogs.map fun blog =>
      { heading := blog.title
        links := blog.parts.map fun part =>
          { href := some ("#" ++ blog.id ++ "/" ++ part.id)
            cls := "blog-link " ++ (if part.id = "intro" then "intro-link" else "")
            title := part.title
            description := part.description } })
    scroll := (0, 0) }

def rewriteLinks (st : BlogEngine) (blogId : String) : BlogEngine :=
  { st with content := st.content.mapHrefs (rewriteLink blogId) }

def renderPart (env : Env) (st : BlogEngine) (blogId partId : String) : BlogEngine :=
  match st.blogs.find? (fun b => b.id == blogId) with
  | none => st.renderHome
  | some blog =>
    let partIndex := findIndex (fun p => p.id == partId) blog.parts
    match index blog.parts partIndex with
    | none => st.renderHome
    | some part =>
      let st1 := st.showLoader true
      let st2 := { st1 with fetched := st1.fetched ++ [part.file] }
      let attempt : Option BlogEngine :=
        match env.fetch part.file with
        | .networkError => none
        | .response _ none => none
        | .response _ (some md) =>
          match env.markedParse md with
          | none => none
          | some rawHtml =>
            match env.sanitize rawHtml with
            | none => none
            | some cleanHtml =>
              let prevPart := index blog.parts (partIndex - 1)
              let nextPart := index blog.parts (partIndex + 1)
              let view : PartView :=
                { breadcrumbHome := { href := some "#", text := "Home" }
                  breadcrumbTitle := blog.title
                  article := cleanHtml
                  articleLinks := env.anchors cleanHtml
                  prev := prevPart.map fun p =>
                    { href := some ("#" ++ blog.id ++ "/" ++ p.id), text := "← " ++ p.title }
                  next := nextPart.map fun p =>
                    { href := some ("#" ++ blog.id ++ "/" ++ p.id), text := p.title ++ " →" } }
              let st3 := { st2 with
                title := part.title ++ " | " ++ blog.title
                headerTitle := blog.title
                headerSubtitle := part.title
                content := .part view }
              some { st3.rewriteLinks blogId with scroll := (0, 0) }
      let st4 := match attempt with
        | some s => s
        | none => { st2 with content := .error partErrorMessage }
      st4.showLoader false

/-- The branch `handleRouting` takes for a fragment `hash`
(`window.location.hash.slice(1)`). -/
def route (hash : String) : Call :=
  if hash = "" then .renderHome
  else
    match split hash '/' with
    | blogId :: partId :: _ =>
      if blogId ≠ "" ∧ partId ≠ "" then .renderPart blogId partId else .renderHome
    | _ => .renderHome

def handleRouting (env : Env) (st : BlogEngine) (hash : String) : BlogEngine :=
  match route hash with
  | .renderHome => st.renderHome
  | .renderPart blogId partId => st.renderPart env blogId partId

/-- The method `init`, started on a freshly constructed engine while the address has
the fragment `hash`. -/
def init (env : Env) (st : BlogEngine) (hash : String) : BlogEngine :=
  let st1 := { st with fetched := st.fetched ++ ["blogs/blogs.json"] }
  let loaded : Option (List Blog) :=
    match env.fetch "blogs/blogs.json" with
    | .networkError => none
    | .response _ none => none
    | .response _ (some body) => env.json body
  match loaded with
  | some blogs => handleRouting env { st1 with blogs := blogs } hash
  | none => { st1 with content := .error manifestErrorMessage }

/-- The `hashchange` listener run on a sequence of address changes, each with the
environment it meets and the new fragment. -/
def hashchanges (st : BlogEngine) (events : List (Env × String)) : BlogEngine :=
  events.foldl (fun s e => handleRouting e.1 s e.2) st

end BlogEngine

/-! ## Concrete data: the scenario of the specification -/

/-- The manifest of the scenario: one series `ai` with the parts `intro` and `deep`. -/
def scenario : List Blog :=
  [{ id := "ai", title := "AI Series", parts :=
      [{ id := "intro", title := "Intro", description := "d1", file := "a.md" },
       { id := "deep", title := "Deep Dive", description := "d2", file := "b.md" }] }]

/-- A page as served, before any script ran, with the loader hidden. -/
def servedPage : BlogEngine :=
  { blogs := [], title := "", headerTitle := "", headerSubtitle := "", content := .initial,
    loaderDisplay := "none", contentOpacity := "1", scroll := (0, 7), fetched := [] }

/-- An environment in which every request succeeds with status 200. -/
def onlineEnv : Env :=
  { fetch := fun _ => .response 200 (some "hello")
    json := fun _ => some scenario
    markedParse := fun md => some ("<p>" ++ md ++ "</p>")
    sanitize := fun html => some html
    anchors := fun _ => [] }

/-- An environment in which every request fails at the network level. -/
def offlineEnv : Env := { onlineEnv with fetch := fun _ => .networkError }

/-- An environment in which the server answers every request with status 404 and an
error page as body. -/
def notFoundEnv : Env := { onlineEnv with fetch := fun _ => .response 404 (some "Not Found") }

/-- An engine holding the scenario manifest on the served page. -/
def scenarioEngine : BlogEngine := { servedPage with blogs := scenario }

/-- A manifest whose first part has an id that ends in `.md`. -/
def dottedManifest : List Blog :=
  [{ id := "ai", title := "AI Series", parts :=
      [{ id := "notes.md", title := "Notes", description := "d1", file := "posts/notes.md" },
       { id := "deep", title := "Deep Dive", description := "d2", file := "posts/deep.md" }] }]

/-- An engine holding `dottedManifest` on the served page. -/
def dottedEngine : BlogEngine := { servedPage with blogs := dottedManifest }

/-! ## The part identifier as the specification words it -/

/-- Removal of the extension a file name ends in (`.md` or `.html`), following the
words of the specification ("stripping the extension"). -/
def specStripExtension (filename : String) : String :=
  if endsWith filename ".md" then ⟨filename.data.take (filename.data.length - 3)⟩
  else if endsWith filename ".html" then ⟨filename.data.take (filename.data.length - 5)⟩
  else filename

/-- The part identifier of the specification: the final path segment, with its
extension stripped, lowercased. -/
def specLinkId (href : String) : String :=
  toLowerCase (specStripExtension ((split href '/').getLastD ""))

/-! ## Auxiliary facts -/

open BlogEngine

theorem split_empty : split "" '/' = [""] := by decide

theorem findIndex_of_forall_false {α : Type} (p : α → Bool) (l : List α)
    (h : ∀ x ∈ l, p x = false) : findIndex p l = -1 := by
  unfold findIndex
  rw [List.findIdx_eq_length_of_false h]
  simp

theorem index_neg_one {α : Type} (l : List α) : index l (-1) = none := by
  simp [index]

theorem find?_of_nodup_map {α : Type} (f : α → String) (l : List α) (a : α)
    (hn : (l.map f).Nodup) (ha : a ∈ l) : l.find? (fun b => f b == f a) = some a := by
  rcases hf : l.find? (fun b => f b == f a) with _ | b
  · rw [List.find?_eq_none] at hf
    exact absurd (by simp) (hf a ha)
  · have hb : b ∈ l := List.mem_of_find?_eq_some hf
    have hfb : f b = f a := by simpa using List.find?_some hf
    rw [List.inj_on_of_nodup_map hn hb ha hfb]

theorem findIndex_of_mem {α : Type} (p : α → Bool) (l : List α) (a : α)
    (ha : a ∈ l) (hp : p a = true) :
    ∃ i : Nat, findIndex p l = (i : Int) ∧ i = l.findIdx p ∧ ∃ h : i < l.length, p (l.get ⟨i, h⟩) = true := by
  have hlt : l.findIdx p < l.length := List.findIdx_lt_length_of_exists ⟨a, ha, hp⟩
  refine ⟨l.findIdx p, ?_, rfl, hlt, ?_⟩
  · simp [findIndex, hlt]
  · exact List.findIdx_getElem

theorem index_findIndex_of_nodup_map {α : Type} (f : α → String) (l : List α) (a : α)
    (hn : (l.map f).Nodup) (ha : a ∈ l) :
    index l (findIndex (fun b => f b == f a) l) = some a := by
  obtain ⟨i, hi, _, hlt, hpi⟩ := findIndex_of_mem (fun b => f b == f a) l a ha (by simp)
  have hmem : l.get ⟨i, hlt⟩ ∈ l := List.get_mem l i hlt
  have hfa : f (l.get ⟨i, hlt⟩) = f a := by simpa using hpi
  have heq : l.get ⟨i, hlt⟩ = a := List.inj_on_of_nodup_map hn hmem ha hfa
  rw [hi]
  simp only [index, Int.toNat_ofNat, Int.ofNat_zero_le, if_true]
  rw [List.getElem?_eq_getElem hlt]
  exact congrArg some heq

theorem suffix_of_suffix_append_sep (sep : Char) (pat pre t : List Char)
    (hsep : sep ∉ pat) (h : pat <:+ pre ++ sep :: t) : pat <:+ t := by
  have ht : sep :: t <:+ pre ++ sep :: t := List.suffix_append _ _
  rcases List.suffix_or_suffix_of_suffix h ht with h1 | h1
  · rcases List.suffix_cons_iff.mp h1 with h2 | h2
    · exact absurd (h2 ▸ List.mem_cons_self sep t) hsep
    · exact h2
  · exact absurd (h1.subset (List.mem_cons_self sep t)) hsep

theorem endsWith_address (blogId id pat : String) (hsep : '/' ∉ pat.data)
    (h : endsWith id pat = false) : endsWith ("#" ++ blogId ++ "/" ++ id) pat = false := by
  unfold endsWith at h ⊢
  rw [Bool.eq_false_iff] at h ⊢
  intro hs
  apply h
  rw [List.isSuffixOf_iff_suffix] at hs ⊢
  have hd : ("#" ++ blogId ++ "/" ++ id).data = ("#" ++ blogId).data ++ '/' :: id.data := by
    simp [String.data_append]
  rw [hd] at hs
  exact suffix_of_suffix_append_sep '/' _ _ _ hsep hs

theorem rewriteLink_unchanged_aux (blogId href : String)
    (h : (includes href "://" = true ∧ startsWith href "./" = false) ∨
      (endsWith href ".md" = false ∧ endsWith href ".html" = false)) :
    rewriteLink blogId (some href) = some href := by
  unfold rewriteLink
  rcases h with ⟨h1, h2⟩ | ⟨h1, h2⟩
  · simp [h1, h2]
  · simp [h1, h2]

theorem index_natCast {α : Type} (l : List α) (n : Nat) : index l (n : Int) = l[n]? := by
  simp [index]

theorem index_natCast_pred {α : Type} (l : List α) (n : Nat) :
    index l ((n : Int) - 1) = if n = 0 then none else l[n - 1]? := by
  rcases n with _ | k
  · simp [index]
  · have h : ((k + 1 : Nat) : Int) - 1 = (k : Int) := by omega
    rw [h, index_natCast]
    simp

theorem index_natCast_succ {α : Type} (l : List α) (n : Nat) :
    index l ((n : Int) + 1) = l[n + 1]? := by
  have h : (n : Int) + 1 = ((n + 1 : Nat) : Int) := by omega
  rw [h, index_natCast]

/-- With an empty manifest every address change is a home render. -/
theorem handleRouting_empty_manifest (env : Env) (st : BlogEngine) (hash : String)
    (h : st.blogs = []) : handleRouting env st hash = st.renderHome := by
  unfold handleRouting
  split
  · rfl
  · unfold renderPart
    simp [h]

theorem hashchanges_empty_manifest (events : List (Env × String)) (st : BlogEngine)
    (h : st.blogs = []) :
    (hashchanges st events).blogs = [] ∧
    (hashchanges st events).fetched = st.fetched ∧
    (events ≠ [] →
      (hashchanges st events).content = Content.home [] ∧
      (hashchanges st events).title = defaultTitle ∧
      (hashchanges st events).headerTitle = defaultTitle ∧
      (hashchanges st events).headerSubtitle = defaultSubtitle) := by
  induction events using List.reverseRecOn generalizing st with
  | nil => simp [hashchanges, h]
  | append_singleton es e ih =>
    have hstep : hashchanges st (es ++ [e]) = (hashchanges st es).renderHome := by
      simp only [hashchanges, List.foldl_append, List.foldl_cons, List.foldl_nil]
      exact handleRouting_empty_manifest _ _ _ (ih st h).1
    rw [hstep]
    refine ⟨(ih st h).1, (ih st h).2.1, fun _ => ⟨?_, rfl, rfl, rfl⟩⟩
    simp [renderHome, (ih st h).1]

theorem replaceFirst_stem_append (pat stem : List Char) (hpat : pat.head? = some '.')
    (hdot : '.' ∉ stem) : replaceFirst pat (stem ++ pat) = stem := by
  induction stem with
  | nil =>
    rcases pat with _ | ⟨c, cs⟩
    · simp at hpat
    · simp [replaceFirst]
  | cons c cs ih =>
    have hc : c ≠ '.' := fun h => hdot (h ▸ List.mem_cons_self c cs)
    have hcs : '.' ∉ cs := fun h => hdot (List.mem_cons_of_mem c h)
    rcases pat with _ | ⟨d, ds⟩
    · simp at hpat
    · simp at hpat
      subst hpat
      have hne : ('.' == c) = false := by simpa using fun h => hc h.symm
      simp only [List.cons_append, replaceFirst, List.isPrefixOf, hne, Bool.false_and]
      simp
      exact ih hcs

theorem replaceFirst_no_dot (pat s : List Char) (hpat : pat.head? = some '.')
    (hdot : '.' ∉ s) : replaceFirst pat s = s := by
  induction s with
  | nil => rfl
  | cons c cs ih =>
    have hc : c ≠ '.' := fun h => hdot (h ▸ List.mem_cons_self c cs)
    have hcs : '.' ∉ cs := fun h => hdot (List.mem_cons_of_mem c h)
    rcases pat with _ | ⟨d, ds⟩
    · simp at hpat
    · simp at hpat
      subst hpat
      have hne : ('.' == c) = false := by simpa using fun h => hc h.symm
      simp only [replaceFirst, List.isPrefixOf, hne, Bool.false_and]
      simp
      exact ih hcs

theorem replaceFirst_md_stem_html (stem : List Char) (hdot : '.' ∉ stem) :
    replaceFirst ".md".data (stem ++ ".html".data) = stem ++ ".html".data := by
  induction stem with
  | nil => decide
  | cons c cs ih =>
    have hc : c ≠ '.' := fun h => hdot (h ▸ List.mem_cons_self c cs)
    have hcs : '.' ∉ cs := fun h => hdot (List.mem_cons_of_mem c h)
    have hne : ('.' == c) = false := by simpa using fun h => hc h.symm
    show replaceFirst ('.' :: "md".data) (c :: (cs ++ ".html".data)) = _
    simp only [replaceFirst, List.isPrefixOf, hne, Bool.false_and]
    simp
    exact ih hcs

theorem endsWith_md_stem_html (stem : List Char) :
    (".md".data).isSuffixOf (stem ++ ".html".data) = false := by
  have h : (stem ++ ".html".data).reverse = 'l' :: 'm' :: 't' :: 'h' :: '.' :: stem.reverse := by
    simp [List.reverse_append]
  unfold List.isSuffixOf
  rw [h]
  show List.isPrefixOf ['d', 'm', '.'] ('l' :: 'm' :: 't' :: 'h' :: '.' :: stem.reverse) = false
  simp [List.isPrefixOf]

/-! ## Routing -/

/-- C1. For every fragment, `handleRouting` calls `renderHome` when the fragment is
empty, has a single token, or has an empty first or second token; it calls
`renderPart b p` exactly when `b` and `p` are the first two tokens and both are
non-empty.  The choice is a function of the fragment alone (`route` has no access to
the manifest), and `handleRouting` executes it. -/
theorem handleRouting_dispatch (hash : String) :
    ((hash = "" ∨ (split hash '/').length = 1 ∨ (split hash '/')[0]? = some "" ∨
        (split hash '/')[1]? = some "") → route hash = Call.renderHome) ∧
    (∀ b p, route hash = Call.renderPart b p ↔
        ((split hash '/')[0]? = some b ∧ (split hash '/')[1]? = some p ∧ b ≠ "" ∧ p ≠ "")) ∧
    (∀ env st, route hash = Call.renderHome →
        handleRouting env st hash = st.renderHome) ∧
    (∀ env st b p, route hash = Call.renderPart b p →
        handleRouting env st hash = st.renderPart env b p) := by
  refine ⟨?_, ?_, ?_, ?_⟩
  · intro h
    unfold route
    by_cases h0 : hash = ""
    · simp [h0]
    · simp only [h0, if_false]
      rcases hs : split hash '/' with _ | ⟨a, _ | ⟨b, rest⟩⟩
      · rfl
      · rfl
      · rw [hs] at h
        rcases h with h | h | h | h
        · exact absurd h h0
        · simp at h
        · simp at h; simp [h]
        · simp at h; simp [h]
  · intro b p
    unfold route
    by_cases h0 : hash = ""
    · subst h0
      simp [split_empty]
    · simp only [h0, if_false]
      rcases hs : split hash '/' with _ | ⟨a, _ | ⟨c, rest⟩⟩
      · simp
      · simp
      · by_cases hac : a ≠ "" ∧ c ≠ ""
        · show (if a ≠ "" ∧ c ≠ "" then Call.renderPart a c else Call.renderHome) = _ ↔ _
          rw [if_pos hac]
          constructor
          · intro h
            injection h with h1 h2
            subst h1; subst h2
            simp [hac.1, hac.2]
          · intro h
            simp at h
            rw [h.1, h.2.1]
        · show (if a ≠ "" ∧ c ≠ "" then Call.renderPart a c else Call.renderHome) = _ ↔ _
          rw [if_neg hac]
          constructor
          · intro h; cases h
          · intro h
            simp at h
            exact absurd ⟨h.1 ▸ h.2.2.1, h.2.1 ▸ h.2.2.2⟩ hac
  · intro env st h
    simp [handleRouting, h]
  · intro env st b p h
    simp [handleRouting, h]

/-- C1, on the fragments `ai/intro/x` (a third token is ignored) and `ai/`. -/
theorem handleRouting_dispatch_witness :
    route "ai/intro/x" = Call.renderPart "ai" "intro" ∧ route "ai/" = Call.renderHome :=
  ⟨((handleRouting_dispatch "ai/intro/x").2.1 "ai" "intro").mpr (by decide),
   (handleRouting_dispatch "ai/").1 (by decide)⟩

/-! ## Resolution of an address -/

/-- C2. When `blogId` is the id of no series, or `partId` is the id of no part of the
series `find` returns, `renderPart` is `renderHome`: the whole state after the call
(titles, header, content region, loader, scroll position, manifest) is the one
`renderHome` leaves, which is also what `handleRouting` leaves for the empty
fragment, and no location is fetched. -/
theorem renderPart_unresolved (env : Env) (st : BlogEngine) (blogId partId : String)
    (h : (∀ b ∈ st.blogs, b.id ≠ blogId) ∨
      (∃ blog, st.blogs.find? (fun b => b.id == blogId) = some blog ∧
        ∀ p ∈ blog.parts, p.id ≠ partId)) :
    st.renderPart env blogId partId = st.renderHome ∧
    st.renderPart env blogId partId = handleRouting env st "" ∧
    (st.renderPart env blogId partId).fetched = st.fetched := by
  have key : st.renderPart env blogId partId = st.renderHome := by
    unfold renderPart
    rcases h with h | ⟨blog, hb, hp⟩
    · have hnone : st.blogs.find? (fun b => b.id == blogId) = none := by
        rw [List.find?_eq_none]
        intro b hb
        simpa using h b hb
      rw [hnone]
    · rw [hb]
      have hidx : findIndex (fun p => p.id == partId) blog.parts = -1 :=
        findIndex_of_forall_false _ _ (fun p hp2 => by simpa using hp p hp2)
      simp only [hidx, index_neg_one]
  refine ⟨key, ?_, ?_⟩
  · rw [key]; rfl
  · rw [key]; rfl

/-- C2, on the scenario manifest: the addresses `ai/missing` (no such part) and
`zz/intro` (no such series). -/
theorem renderPart_unresolved_witness :
    scenarioEngine.renderPart onlineEnv "ai" "missing" = scenarioEngine.renderHome ∧
    scenarioEngine.renderPart onlineEnv "zz" "intro" = scenarioEngine.renderHome :=
  ⟨(renderPart_unresolved onlineEnv scenarioEngine "ai" "missing"
      (Or.inr ⟨_, rfl, by decide⟩)).1,
   (renderPart_unresolved onlineEnv scenarioEngine "zz" "intro" (Or.inl (by decide))).1⟩

/-- C3. In a manifest that satisfies the data-model invariant (unique series ids,
unique part ids within a series), for every series `blog` of the manifest and every
part `part` of that series, `renderPart blog.id part.id` does not fall back to the
home view: it issues exactly one request, for `part.file`, and the content region ends
as a part view or as the fetch-error view. -/
theorem renderPart_resolved (env : Env) (st : BlogEngine) (blog : Blog) (part : Part)
    (hwf : WellFormed st.blogs) (hb : blog ∈ st.blogs) (hp : part ∈ blog.parts) :
    (st.renderPart env blog.id part.id).fetched = st.fetched ++ [part.file] ∧
    ((∃ v, (st.renderPart env blog.id part.id).content = Content.part v) ∨
      (st.renderPart env blog.id part.id).content = Content.error partErrorMessage) ∧
    (∀ groups, (st.renderPart env blog.id part.id).content ≠ Content.home groups) ∧
    st.renderPart env blog.id part.id ≠ st.renderHome := by
  have hfind := find?_of_nodup_map Blog.id st.blogs blog hwf.1 hb
  have hidx := index_findIndex_of_nodup_map Part.id blog.parts part (hwf.2 blog hb) hp
  have hfetched : (st.renderPart env blog.id part.id).fetched = st.fetched ++ [part.file] := by
    unfold renderPart
    simp only [hfind, hidx]
    rcases env.fetch part.file with _ | ⟨status, _ | md⟩
    · rfl
    · rfl
    · dsimp only
      rcases env.markedParse md with _ | rawHtml
      · rfl
      · dsimp only
        rcases env.sanitize rawHtml with _ | cleanHtml
        · rfl
        · rfl
  have hcontent : (∃ v, (st.renderPart env blog.id part.id).content = Content.part v) ∨
      (st.renderPart env blog.id part.id).content = Content.error partErrorMessage := by
    unfold renderPart
    simp only [hfind, hidx]
    rcases env.fetch part.file with _ | ⟨status, _ | md⟩
    · exact Or.inr rfl
    · exact Or.inr rfl
    · dsimp only
      rcases env.markedParse md with _ | rawHtml
      · exact Or.inr rfl
      · dsimp only
        rcases env.sanitize rawHtml with _ | cleanHtml
        · exact Or.inr rfl
        · exact Or.inl ⟨_, rfl⟩
  refine ⟨hfetched, hcontent, ?_, ?_⟩
  · intro groups hg
    rcases hcontent with ⟨v, hv⟩ | he
    · rw [hv] at hg; cases hg
    · rw [he] at hg; cases hg
  · intro heq
    have h1 := congrArg BlogEngine.fetched heq
    rw [hfetched] at h1
    have h2 := congrArg List.length h1
    simp [renderHome] at h2

/-- C3, on the scenario manifest at the address `ai/deep`. -/
theorem renderPart_resolved_witness :
    (scenarioEngine.renderPart offlineEnv "ai" "deep").fetched = ["b.md"] ∧
    ∀ groups, (scenarioEngine.renderPart offlineEnv "ai" "deep").content ≠ Content.home groups :=
  have h := renderPart_resolved offlineEnv scenarioEngine
    { id := "ai", title := "AI Series", parts :=
      [{ id := "intro", title := "Intro", description := "d1", file := "a.md" },
       { id := "deep", title := "Deep Dive", description := "d2", file := "b.md" }] }
    { id := "deep", title := "Deep Dive", description := "d2", file := "b.md" }
    (by decide) (by decide) (by decide)
  ⟨h.1, h.2.2.1⟩

/-- C9. For every manifest, address and outcome of the fetch and of the rendering,
`renderPart` started with the loader hidden ends with the loader hidden. -/
theorem renderPart_loader_off (env : Env) (st : BlogEngine) (blogId partId : String)
    (h : st.loaderDisplay = "none") :
    (st.renderPart env blogId partId).loaderDisplay = "none" := by
  unfold renderPart
  split
  · exact h
  · dsimp only
    split
    · exact h
    · rfl

/-- C9, on the scenario: part shown, fetch failed, address unresolved. -/
theorem renderPart_loader_off_witness :
    (scenarioEngine.renderPart onlineEnv "ai" "intro").loaderDisplay = "none" ∧
    (scenarioEngine.renderPart offlineEnv "ai" "intro").loaderDisplay = "none" ∧
    (scenarioEngine.renderPart onlineEnv "ai" "missing").loaderDisplay = "none" :=
  ⟨renderPart_loader_off onlineEnv scenarioEngine "ai" "intro" (by decide),
   renderPart_loader_off offlineEnv scenarioEngine "ai" "intro" (by decide),
   renderPart_loader_off onlineEnv scenarioEngine "ai" "missing" (by decide)⟩

/-! ## Link rewriting -/

/-- C7. `rewriteLinks` leaves a target unchanged when it is absolute (it contains `://`
and does not start with `./`), and when it ends neither in `.md` nor in `.html`. -/
theorem rewriteLink_unchanged (blogId href : String)
    (h : (includes href "://" = true ∧ startsWith href "./" = false) ∨
      (endsWith href ".md" = false ∧ endsWith href ".html" = false)) :
    rewriteLink blogId (some href) = some href :=
  rewriteLink_unchanged_aux blogId href h

/-- C7, on the absolute link `https://x.com/y.md` viewed under the series `ai`. -/
theorem rewriteLink_unchanged_witness :
    rewriteLink "ai" (some "https://x.com/y.md") = some "https://x.com/y.md" :=
  rewriteLink_unchanged "ai" "https://x.com/y.md" (Or.inl (by decide))

/-- C5, refuted as stated: under the series `ai` the target `x.md.md` is rewritten to
`#ai/x.md`, and a second pass rewrites that in-app address again, to `#ai/x`. -/
theorem rewriteLink_not_idempotent :
    rewriteLink "ai" (some "x.md.md") = some "#ai/x.md" ∧
    rewriteLink "ai" (rewriteLink "ai" (some "x.md.md")) = some "#ai/x" ∧
    rewriteLink "ai" (rewriteLink "ai" (some "x.md.md")) ≠ rewriteLink "ai" (some "x.md.md") := by
  decide

/-- C5, amended. For every series id and every target whose derived part identifier
does not itself end in `.md` or `.html`, a second pass of `rewriteLinks` changes
nothing: the in-app address written by the first pass is left untouched. -/
theorem rewriteLink_idempotent (blogId href : String)
    (h : endsWith (linkId href) ".md" = false ∧ endsWith (linkId href) ".html" = false) :
    rewriteLink blogId (rewriteLink blogId (some href)) = rewriteLink blogId (some href) := by
  by_cases hg : (href ≠ "" ∧ (startsWith href "./" ∨ ¬ includes href "://")) ∧
      (endsWith href ".md" ∨ endsWith href ".html")
  · have h1 : rewriteLink blogId (some href) = some ("#" ++ blogId ++ "/" ++ linkId href) := by
      unfold rewriteLink
      dsimp only
      rw [if_pos hg.1, if_pos hg.2]
    rw [h1]
    exact rewriteLink_unchanged_aux blogId _
      (Or.inr ⟨endsWith_address blogId _ ".md" (by decide) h.1,
        endsWith_address blogId _ ".html" (by decide) h.2⟩)
  · have h1 : rewriteLink blogId (some href) = some href := by
      unfold rewriteLink
      dsimp only
      by_cases hg1 : href ≠ "" ∧ (startsWith href "./" ∨ ¬ includes href "://")
      · rw [if_pos hg1, if_neg (fun h2 => hg ⟨hg1, h2⟩)]
      · rw [if_neg hg1]
    rw [h1, h1]

/-- C5 amended, on `./Sibling.md` under the series `ai`: both passes give
`#ai/sibling`. -/
theorem rewriteLink_idempotent_witness :
    rewriteLink "ai" (rewriteLink "ai" (some "./Sibling.md")) = some "#ai/sibling" :=
  (rewriteLink_idempotent "ai" "./Sibling.md" (by decide)).trans (by decide)

/-- Agreement of the code with the specification on plain file names. When the final
path segment of a target is `stem.md` or `stem.html` with no `.` inside `stem`, the
identifier the code derives and the identifier of the specification are both the
lowercased `stem`. -/
theorem linkId_eq_specLinkId (href : String) (stem : List Char) (hdot : '.' ∉ stem)
    (h : ((split href '/').getLastD "").data = stem ++ ".md".data ∨
      ((split href '/').getLastD "").data = stem ++ ".html".data) :
    linkId href = toLowerCase ⟨stem⟩ ∧ specLinkId href = toLowerCase ⟨stem⟩ := by
  have hcode : replace (replace ((split href '/').getLastD "") ".md") ".html" = ⟨stem⟩ := by
    unfold replace
    rcases h with h | h
    · rw [h, replaceFirst_stem_append _ _ (by decide) hdot,
        replaceFirst_no_dot _ _ (by decide) hdot]
    · rw [h, replaceFirst_md_stem_html _ hdot]
      show String.mk (replaceFirst ".html".data (stem ++ ".html".data)) = _
      rw [replaceFirst_stem_append _ _ (by decide) hdot]
  have hspec : specStripExtension ((split href '/').getLastD "") = ⟨stem⟩ := by
    unfold specStripExtension endsWith
    rcases h with h | h
    · have hs : (".md".data).isSuffixOf (stem ++ ".md".data) = true := by
        rw [List.isSuffixOf_iff_suffix]; exact List.suffix_append _ _
      rw [h, if_pos hs]
      congr 1
      have : (stem ++ ".md".data).length - 3 = stem.length := by
        simp [List.length_append]
      rw [this, List.take_left']
      rfl
    · have hs : (".html".data).isSuffixOf (stem ++ ".html".data) = true := by
        rw [List.isSuffixOf_iff_suffix]; exact List.suffix_append _ _
      rw [h, endsWith_md_stem_html, if_neg (by simp), if_pos hs]
      congr 1
      have : (stem ++ ".html".data).length - 5 = stem.length := by
        simp [List.length_append]
      rw [this, List.take_left']
      rfl
  constructor
  · unfold linkId
    simp only [hcode]
    split_ifs with hi
    · exact hi.symm
    · rfl
  · unfold specLinkId
    rw [hspec]

/-- C6, the code at the failing input. Under the series `ai` the relative target
`./notes.mdx.html` is rewritten to `#ai/notesx`: `replace` removes the first
occurrence of `.md`, which lies inside the name, and then the extension.  The
identifier of the specification (final segment, extension stripped, lowercased) is
`notes.mdx`.  On `./sibling.md` the two agree. -/
theorem rewriteLink_extension_slip :
    rewriteLink "ai" (some "./notes.mdx.html") = some "#ai/notesx" ∧
    specLinkId "./notes.mdx.html" = "notes.mdx" ∧
    rewriteLink "ai" (some "./sibling.md") = some ("#ai/" ++ specLinkId "./sibling.md") := by
  decide

/-! ## Fetch failures -/

/-- When the request for a resolved part is rejected (network failure), the content
region ends with the error message and the loader is hidden. -/
theorem renderPart_fetch_rejected (env : Env) (st : BlogEngine) (blogId partId : String)
    (blog : Blog) (part : Part)
    (hb : st.blogs.find? (fun b => b.id == blogId) = some blog)
    (hp : index blog.parts (findIndex (fun p => p.id == partId) blog.parts) = some part)
    (hf : env.fetch part.file = FetchResult.networkError) :
    (st.renderPart env blogId partId).content = Content.error partErrorMessage ∧
    (st.renderPart env blogId partId).loaderDisplay = "none" := by
  unfold renderPart
  simp only [hb, hp, hf]
  exact ⟨rfl, rfl⟩

/-- C8, the code at the failing input. On the scenario manifest, when the server
answers the request for `ai/intro` with status 404 and the body `Not Found`,
`renderPart` shows a part view whose article is built from that body, with the titles
of the part, and not the error view. -/
theorem renderPart_non_success_status :
    (scenarioEngine.renderPart notFoundEnv "ai" "intro").content =
      Content.part
        { breadcrumbHome := { href := some "#", text := "Home" }
          breadcrumbTitle := "AI Series"
          article := "<p>Not Found</p>"
          articleLinks := []
          prev := none
          next := some { href := some "#ai/deep", text := "Deep Dive →" } } ∧
    (scenarioEngine.renderPart notFoundEnv "ai" "intro").title = "Intro | AI Series" ∧
    (scenarioEngine.renderPart notFoundEnv "ai" "intro").content ≠
      Content.error partErrorMessage := by
  decide

/-! ## Manifest failure -/

/-- C10, refuted as stated. The manifest request fails while the address is
`#ai/intro`: the content region shows the manifest error.  The address then changes to
the empty fragment, and later back to `ai/intro`: after either event the content region
holds the (empty) home listing, not the error message. -/
theorem manifest_error_not_terminal :
    (init offlineEnv (new servedPage) "ai/intro").content = Content.error manifestErrorMessage ∧
    (handleRouting offlineEnv (init offlineEnv (new servedPage) "ai/intro") "").content =
      Content.home [] ∧
    (hashchanges (init offlineEnv (new servedPage) "ai/intro")
      [(offlineEnv, ""), (onlineEnv, "ai/intro")]).content ≠
      Content.error manifestErrorMessage := by
  decide

/-- C10, amended. When the manifest load of `init` fails (the request is rejected, the
body cannot be read, or the body does not decode), the content region shows the
manifest error message, the manifest stays empty and only the manifest was requested.
Every later sequence of address changes, whatever the fragments and the environment,
fetches nothing and keeps the manifest empty; after one or more of them the content
region holds the empty home listing under the default titles. -/
theorem manifest_error_then_home (env : Env) (page : BlogEngine) (hash : String)
    (hfail : env.fetch "blogs/blogs.json" = FetchResult.networkError ∨
      (∃ status, env.fetch "blogs/blogs.json" = FetchResult.response status none) ∨
      (∃ status body, env.fetch "blogs/blogs.json" = FetchResult.response status (some body) ∧
        env.json body = none)) :
    (init env (new page) hash).content = Content.error manifestErrorMessage ∧
    (init env (new page) hash).blogs = [] ∧
    (init env (new page) hash).fetched = page.fetched ++ ["blogs/blogs.json"] ∧
    ∀ events : List (Env × String),
      (hashchanges (init env (new page) hash) events).blogs = [] ∧
      (hashchanges (init env (new page) hash) events).fetched =
        page.fetched ++ ["blogs/blogs.json"] ∧
      (events ≠ [] →
        (hashchanges (init env (new page) hash) events).content = Content.home [] ∧
        (hashchanges (init env (new page) hash) events).title = defaultTitle ∧
        (hashchanges (init env (new page) hash) events).headerTitle = defaultTitle ∧
        (hashchanges (init env (new page) hash) events).headerSubtitle = defaultSubtitle) := by
  have hinit : init env (new page) hash =
      { new page with
        fetched := page.fetched ++ ["blogs/blogs.json"]
        content := Content.error manifestErrorMessage } := by
    unfold init
    rcases hfail with h | ⟨status, h⟩ | ⟨status, body, h, hj⟩
    · simp only [h]; rfl
    · simp only [h]; rfl
    · simp only [h, hj]; rfl
  rw [hinit]
  refine ⟨rfl, rfl, rfl, fun events => ?_⟩
  exact hashchanges_empty_manifest events _ rfl

/-- C10 amended, with the network down at start-up and three later address changes. -/
theorem manifest_error_then_home_witness :
    (hashchanges (init offlineEnv (new servedPage) "ai/intro")
      [(offlineEnv, ""), (onlineEnv, "ai/intro"), (onlineEnv, "ai/deep")]).content =
      Content.home [] :=
  ((manifest_error_then_home offlineEnv servedPage "ai/intro" (Or.inl rfl)).2.2.2
    [(offlineEnv, ""), (onlineEnv, "ai/intro"), (onlineEnv, "ai/deep")]).2.2 (by simp) |>.1

/-! ## Previous and next links -/

/-- The navigation links of a rendered part.  When the address resolves to the part at
index `i` of `blog` and the fetch, the rendering and the sanitising succeed, the part
view has no previous link exactly when `i = 0` and no next link exactly when `i` is the
last index; a link that is present carries the target `#blog.id/q.id` of the adjacent
part `q` after it went through `rewriteLinks`, which leaves it as written whenever
`q.id` ends neither in `.md` nor in `.html`. -/
theorem renderPart_navigation (env : Env) (st : BlogEngine) (blogId partId : String)
    (blog : Blog) (i : Nat) (part : Part) (status : Nat) (md rawHtml cleanHtml : String)
    (hb : st.blogs.find? (fun b => b.id == blogId) = some blog)
    (hi : findIndex (fun p => p.id == partId) blog.parts = (i : Int))
    (hp : blog.parts[i]? = some part)
    (hf : env.fetch part.file = FetchResult.response status (some md))
    (hm : env.markedParse md = some rawHtml)
    (hs : env.sanitize rawHtml = some cleanHtml) :
    ∃ v, (st.renderPart env blogId partId).content = Content.part v ∧
      (v.prev = none ↔ i = 0) ∧
      (v.next = none ↔ i + 1 = blog.parts.length) ∧
      (∀ a, v.prev = some a → ∃ q, blog.parts[i - 1]? = some q ∧
        a.href = rewriteLink blogId (some ("#" ++ blog.id ++ "/" ++ q.id)) ∧
        (endsWith q.id ".md" = false → endsWith q.id ".html" = false →
          a.href = some ("#" ++ blog.id ++ "/" ++ q.id))) ∧
      (∀ a, v.next = some a → ∃ q, blog.parts[i + 1]? = some q ∧
        a.href = rewriteLink blogId (some ("#" ++ blog.id ++ "/" ++ q.id)) ∧
        (endsWith q.id ".md" = false → endsWith q.id ".html" = false →
          a.href = some ("#" ++ blog.id ++ "/" ++ q.id))) := by
  have hlt : i < blog.parts.length := by
    rcases Nat.lt_or_ge i blog.parts.length with h | h
    · exact h
    · rw [List.getElem?_eq_none h] at hp; cases hp
  have keep : ∀ q : Part, endsWith q.id ".md" = false → endsWith q.id ".html" = false →
      rewriteLink blogId (some ("#" ++ blog.id ++ "/" ++ q.id)) =
        some ("#" ++ blog.id ++ "/" ++ q.id) := fun q h1 h2 =>
    rewriteLink_unchanged_aux blogId _
      (Or.inr ⟨endsWith_address blog.id q.id ".md" (by decide) h1,
        endsWith_address blog.id q.id ".html" (by decide) h2⟩)
  unfold renderPart
  simp only [hb, hi, index_natCast, hp, hf, hm, hs, index_natCast_pred, index_natCast_succ]
  refine ⟨_, rfl, ?_, ?_, ?_, ?_⟩
  · rcases i with _ | k
    · simp
    · have hk : k < blog.parts.length := by omega
      simp [List.getElem?_eq_getElem hk]
  · rcases Nat.lt_or_ge (i + 1) blog.parts.length with h | h
    · simp [List.getElem?_eq_getElem h]
      omega
    · simp [List.getElem?_eq_none h]
      omega
  · intro a ha
    rcases i with _ | k
    · simp at ha
    · have hk : k < blog.parts.length := by omega
      simp [List.getElem?_eq_getElem hk] at ha
      refine ⟨blog.parts[k], by simp [List.getElem?_eq_getElem hk], ?_, ?_⟩
      · rw [← ha]
      · intro h1 h2
        rw [← ha]
        exact keep _ h1 h2
  · intro a ha
    rcases Nat.lt_or_ge (i + 1) blog.parts.length with h | h
    · simp [List.getElem?_eq_getElem h] at ha
      refine ⟨blog.parts[i + 1], by simp [List.getElem?_eq_getElem h], ?_, ?_⟩
      · rw [← ha]
      · intro h1 h2
        rw [← ha]
        exact keep _ h1 h2
    · simp [List.getElem?_eq_none h] at ha

/-- C4, the code at the failing input. In `dottedManifest` the part before `deep` has
the id `notes.md`.  The home view links to it as `#ai/notes.md`; the part view of
`ai/deep` is given the previous link `#ai/notes.md` too, but `rewriteLinks` then
rewrites every anchor of the content region, this one included, and the link ends as
`#ai/notes`, an address that resolves to no part. -/
theorem renderPart_previous_link_rewritten :
    (dottedEngine.renderPart onlineEnv "ai" "deep").content =
      Content.part
        { breadcrumbHome := { href := some "#", text := "Home" }
          breadcrumbTitle := "AI Series"
          article := "<p>hello</p>"
          articleLinks := []
          prev := some { href := some "#ai/notes", text := "← Notes" }
          next := none } ∧
    dottedEngine.renderPart onlineEnv "ai" "notes" = dottedEngine.renderHome ∧
    dottedEngine.renderHome.content =
      Content.home
        [{ heading := "AI Series"
           links :=
            [{ href := some "#ai/notes.md", cls := "blog-link ", title := "Notes",
               description := "d1" },
             { href := some "#ai/deep", cls := "blog-link ", title := "Deep Dive",
               description := "d2" }] }] := by
  decide

end GASD
